import Mathlib

/-!
Shallow embedding of the user-directory service (FastAPI + SQLModel CRUD app:
`models.py`, `main.py`, `database.py`).

The persistent `users` table is modelled as a `Store`: a list of `User` rows
in insertion order together with the next auto-assigned primary key.  Each
request handler from `main.py` becomes a Lean function on `Store`; SQL
`SELECT ... WHERE ... .first()` becomes `List.find?`, `OFFSET`/`LIMIT`
become `List.drop`/`List.take`, `session.delete` of a fetched row becomes
`List.eraseP`, and the serial primary key is the `nextId` counter.

Strings are modelled as `List Char` restricted to the ASCII fragment
(Python's `str.isalnum`/`str.lower` agree with `Char.isAlphanum`/
`Char.toLower` there).  Timestamps are abstract clock readings (`Nat`);
`datetime.utcnow()` is called once for `created_at` and once for
`updated_at`, so the two readings are separate parameters of `create_user`.
-/

set_option maxHeartbeats 1000000

namespace UserService

/-- A persisted row of the `users` table (`models.py`, class `User`):
`id` primary key, `email`, `username`, and the two timestamp columns. -/
structure User where
  id : Nat
  email : List Char
  username : List Char
  created_at : Nat
  updated_at : Nat
deriving DecidableEq, Repr

/-- The response view (`models.py`, class `UserResponse`): the same five
fields exposed to the client. -/
structure UserResponse where
  id : Nat
  email : List Char
  username : List Char
  created_at : Nat
  updated_at : Nat
deriving DecidableEq, Repr

/-- Conversion of a stored row to the response view
(`UserResponse.model_validate(db_user)` in `main.py`). -/
def UserResponse.model_validate (u : User) : UserResponse :=
  { id := u.id, email := u.email, username := u.username,
    created_at := u.created_at, updated_at := u.updated_at }

/-- The creation payload after pydantic validation (`models.py`, class
`UserCreate`): the username field already holds the normalized
(lowercased) value produced by the validator. -/
structure UserCreate where
  email : List Char
  username : List Char
deriving DecidableEq, Repr

/-- Python `str.replace(ch, '')`: remove every occurrence of one character. -/
def removeAll (ch : Char) (v : List Char) : List Char :=
  v.filter (fun c => c != ch)

/-- Python `str.isalnum` on the ASCII fragment: true exactly when the string
is nonempty and every character is alphanumeric (the empty string is NOT
alphanumeric in Python). -/
def pyIsAlnum (v : List Char) : Bool :=
  !v.isEmpty && v.all Char.isAlphanum

/-- The username validator from `models.py` (`UserBase.validate_username`):
`if not v.replace('_', '').replace('-', '').isalnum(): raise ...; return
v.lower()`.  `none` models the raised `ValueError`. -/
def validate_username (v : List Char) : Option (List Char) :=
  if pyIsAlnum (removeAll '-' (removeAll '_' v)) then
    some (v.map Char.toLower)
  else
    none

/-- Email syntax check.  `EmailStr` delegates to an external validation
library; it is modelled as a simple well-formedness test (a single `@` with
nonempty local part and nonempty domain).  No claim depends on finer email
syntax, and the repository applies no transformation to accepted emails. -/
def validEmail (e : List Char) : Bool :=
  (e.count '@' == 1) && !(e.takeWhile (fun c => c != '@')).isEmpty &&
    !((e.dropWhile (fun c => c != '@')).tail).isEmpty

/-- Pydantic parsing of the creation payload (`models.py`, `UserCreate`):
the `EmailStr` field, the `Field(min_length=3, max_length=50)` constraint
on `username`, and the `validate_username` validator, which lowercases the
accepted username.  `none` models a 422 validation failure. -/
def parseUserCreate (email username : List Char) : Option UserCreate :=
  if validEmail email = true ∧ 3 ≤ username.length ∧ username.length ≤ 50 then
    match validate_username username with
    | some w => some { email := email, username := w }
    | none => none
  else
    none

/-- An HTTP handler outcome: either a success payload or an
`HTTPException`, both carrying their status code. -/
inductive HResp (α : Type) where
  | ok (status : Nat) (value : α)
  | err (status : Nat) (detail : String)
deriving DecidableEq, Repr

/-- The database state: the rows of the `users` table in insertion order,
plus the next value of the serial primary key. -/
structure Store where
  users : List User
  nextId : Nat
deriving DecidableEq, Repr

/-- The freshly created database (empty table, serial key starts at 1). -/
def initStore : Store := { users := [], nextId := 1 }

/-- Handler `POST /users/` (`create_user` in `main.py`): check the email
for an existing row, then the (already normalized) username, then insert
the row with a server-assigned id and the two timestamp readings `tc`
(for `created_at`) and `tu` (for `updated_at`). -/
def create_user (s : Store) (user : UserCreate) (tc tu : Nat) :
    HResp UserResponse × Store :=
  match s.users.find? (fun r => r.email == user.email) with
  | some _ => (.err 400 "Email already registered", s)
  | none =>
    match s.users.find? (fun r => r.username == user.username) with
    | some _ => (.err 400 "Username already taken", s)
    | none =>
      let db_user : User :=
        { id := s.nextId, email := user.email, username := user.username,
          created_at := tc, updated_at := tu }
      (.ok 201 (UserResponse.model_validate db_user),
        { users := s.users ++ [db_user], nextId := s.nextId + 1 })

/-- The row inserted by a successful create: server-assigned id, the
payload fields, and the two clock readings.  This is the `db_user` built
inside `create_user`. -/
def newRow (s : Store) (uc : UserCreate) (tc tu : Nat) : User :=
  { id := s.nextId, email := uc.email, username := uc.username,
    created_at := tc, updated_at := tu }

/-- Handler `GET /users/` (`get_users` in `main.py`):
`select(User).offset(skip).limit(limit)` over the natural storage order. -/
def get_users (s : Store) (skip limit : Nat) : HResp (List UserResponse) :=
  .ok 200 (((s.users.drop skip).take limit).map UserResponse.model_validate)

/-- Handler `GET /users/{user_id}` (`get_user` in `main.py`):
primary-key lookup, 404 when absent. -/
def get_user (s : Store) (user_id : Nat) : HResp UserResponse :=
  match s.users.find? (fun r => r.id == user_id) with
  | some u => .ok 200 (UserResponse.model_validate u)
  | none => .err 404 "User not found"

/-- Handler `GET /users/email/{email}` (`get_user_by_email` in `main.py`):
first row whose email equals the given raw string, 404 when absent. -/
def get_user_by_email (s : Store) (email : List Char) : HResp UserResponse :=
  match s.users.find? (fun r => r.email == email) with
  | some u => .ok 200 (UserResponse.model_validate u)
  | none => .err 404 "User not found"

/-- Handler `DELETE /users/{user_id}` (`delete_user` in `main.py`):
fetch by primary key, 404 when absent, otherwise delete the fetched row. -/
def delete_user (s : Store) (user_id : Nat) : HResp String × Store :=
  match s.users.find? (fun r => r.id == user_id) with
  | some _ =>
    (.ok 200 "User deleted successfully",
      { users := s.users.eraseP (fun r => r.id == user_id), nextId := s.nextId })
  | none => (.err 404 "User not found", s)

/-- Concrete sample row used to instantiate the theorems: the row created
by the first request `{email: a@x.com, username: Alice}` with clock
readings 0 and 1. -/
def aliceRow : User :=
  { id := 1, email := ("a@x.com").toList, username := ("alice").toList,
    created_at := 0, updated_at := 1 }

/-- Concrete sample store holding just `aliceRow`. -/
def aliceStore : Store := { users := [aliceRow], nextId := 2 }

/-- One inbound request, carrying raw payload data.  A create request also
carries the two clock readings taken for its timestamp columns. -/
inductive Op where
  | createOp (email username : List Char) (tc tu : Nat)
  | listOp (skip limit : Nat)
  | getOp (user_id : Nat)
  | getByEmailOp (email : List Char)
  | deleteOp (user_id : Nat)
deriving DecidableEq, Repr

/-- The state transition of one request: payload validation happens before
the create handler runs (an invalid payload is rejected with 422 and the
store is untouched); read-only handlers never change the store. -/
def applyOp (s : Store) : Op → Store
  | .createOp e u tc tu =>
    match parseUserCreate e u with
    | some uc => (create_user s uc tc tu).2
    | none => s
  | .deleteOp i => (delete_user s i).2
  | .listOp _ _ => s
  | .getOp _ => s
  | .getByEmailOp _ => s

/-- The store produced by a sequence of requests run against the freshly
created database. -/
def runOps (ops : List Op) : Store := ops.foldl applyOp initStore

/-- A store state is reachable when some request sequence produces it. -/
def Reachable (s : Store) : Prop := ∃ ops, runOps ops = s

/-- A character admitted by the username validator: alphanumeric, hyphen,
or underscore. -/
def validUsernameChar (c : Char) : Prop :=
  c.isAlphanum = true ∨ c = '-' ∨ c = '_'

instance (c : Char) : Decidable (validUsernameChar c) := by
  unfold validUsernameChar; infer_instance

/-- The store invariant: unique emails, unique stored usernames, unique
ids, every stored username well-formed (length 3-50, restricted character
set), and every id below the serial counter. -/
def Inv (s : Store) : Prop :=
  (s.users.map User.email).Nodup ∧
  (s.users.map User.username).Nodup ∧
  (s.users.map User.id).Nodup ∧
  (∀ r ∈ s.users, 3 ≤ r.username.length ∧ r.username.length ≤ 50 ∧
    ∀ c ∈ r.username, validUsernameChar c) ∧
  (∀ r ∈ s.users, r.id < s.nextId)

/-! ### Character-level facts about Python `str.lower` / `str.isalnum` (ASCII) -/

theorem char_toNat_inj {c d : Char} (h : c.toNat = d.toNat) : c = d := by
  have h1 := Char.ofNat_toNat c
  have h2 := Char.ofNat_toNat d
  rw [← h1, ← h2, h]

theorem char_eq_iff_toNat {c d : Char} : c = d ↔ c.toNat = d.toNat :=
  ⟨fun h => h ▸ rfl, char_toNat_inj⟩

theorem isUpper_iff (c : Char) : c.isUpper = true ↔ 65 ≤ c.toNat ∧ c.toNat ≤ 90 := by
  simp only [Char.isUpper, Bool.and_eq_true, decide_eq_true_eq, UInt32.le_def, BitVec.le_def]
  exact Iff.rfl

theorem isLower_iff (c : Char) : c.isLower = true ↔ 97 ≤ c.toNat ∧ c.toNat ≤ 122 := by
  simp only [Char.isLower, Bool.and_eq_true, decide_eq_true_eq, UInt32.le_def, BitVec.le_def]
  exact Iff.rfl

theorem isDigit_iff (c : Char) : c.isDigit = true ↔ 48 ≤ c.toNat ∧ c.toNat ≤ 57 := by
  simp only [Char.isDigit, Bool.and_eq_true, decide_eq_true_eq, UInt32.le_def, BitVec.le_def]
  exact Iff.rfl

theorem isAlphanum_iff (c : Char) :
    c.isAlphanum = true ↔
      (65 ≤ c.toNat ∧ c.toNat ≤ 90) ∨ (97 ≤ c.toNat ∧ c.toNat ≤ 122) ∨
        (48 ≤ c.toNat ∧ c.toNat ≤ 57) := by
  simp [Char.isAlphanum, Char.isAlpha, isUpper_iff, isLower_iff, isDigit_iff, or_assoc]

theorem toNat_toLower (c : Char) :
    (Char.toLower c).toNat =
      if 65 ≤ c.toNat ∧ c.toNat ≤ 90 then c.toNat + 32 else c.toNat := by
  unfold Char.toLower
  by_cases h : 65 ≤ c.toNat ∧ c.toNat ≤ 90
  · rw [if_pos h, if_pos ⟨h.1, h.2⟩]
    have hv : Nat.isValidChar (c.toNat + 32) := Or.inl (by omega)
    rw [Char.ofNat, dif_pos hv]
    rfl
  · rw [if_neg h, if_neg h]

theorem isAlphanum_toLower (c : Char) : (Char.toLower c).isAlphanum = c.isAlphanum := by
  rw [Bool.eq_iff_iff, isAlphanum_iff, isAlphanum_iff, toNat_toLower]
  by_cases h : 65 ≤ c.toNat ∧ c.toNat ≤ 90
  · rw [if_pos h]; omega
  · rw [if_neg h]

theorem toLower_eq_iff_fixed {c d : Char} (hd : ¬(65 ≤ d.toNat ∧ d.toNat ≤ 90))
    (hd2 : ¬(97 ≤ d.toNat ∧ d.toNat ≤ 122)) : Char.toLower c = d ↔ c = d := by
  rw [char_eq_iff_toNat, char_eq_iff_toNat, toNat_toLower]
  by_cases h : 65 ≤ c.toNat ∧ c.toNat ≤ 90
  · rw [if_pos h]; omega
  · rw [if_neg h]

theorem toLower_eq_underscore (c : Char) : (Char.toLower c = '_') ↔ (c = '_') :=
  toLower_eq_iff_fixed (by decide) (by decide)

theorem toLower_eq_hyphen (c : Char) : (Char.toLower c = '-') ↔ (c = '-') :=
  toLower_eq_iff_fixed (by decide) (by decide)

theorem validUsernameChar_toLower {c : Char} (h : validUsernameChar c) :
    validUsernameChar (Char.toLower c) := by
  rcases h with h | h | h
  · exact Or.inl (by rw [isAlphanum_toLower]; exact h)
  · exact Or.inr (Or.inl ((toLower_eq_hyphen c).mpr h))
  · exact Or.inr (Or.inr ((toLower_eq_underscore c).mpr h))

theorem removeAll_map_toLower (ch : Char) (hch : ∀ c : Char, Char.toLower c = ch ↔ c = ch)
    (v : List Char) :
    removeAll ch (v.map Char.toLower) = (removeAll ch v).map Char.toLower := by
  unfold removeAll
  rw [List.filter_map]
  congr 1
  apply List.filter_congr
  intro a _
  rw [Bool.eq_iff_iff]
  simp [bne_iff_ne, hch a]

theorem pyIsAlnum_map_toLower (v : List Char) :
    pyIsAlnum (v.map Char.toLower) = pyIsAlnum v := by
  unfold pyIsAlnum
  rw [Bool.eq_iff_iff]
  simp [List.all_eq_true, isAlphanum_toLower, List.isEmpty_iff]

/-- The character-level test of `validate_username` is insensitive to
lowercasing its argument. -/
theorem usernameCheck_map_toLower (v : List Char) :
    pyIsAlnum (removeAll '-' (removeAll '_' (v.map Char.toLower))) =
      pyIsAlnum (removeAll '-' (removeAll '_' v)) := by
  rw [removeAll_map_toLower '_' toLower_eq_underscore,
    removeAll_map_toLower '-' toLower_eq_hyphen, pyIsAlnum_map_toLower]

/-- Per-character characterization of the validator's test. -/
theorem usernameCheck_iff (v : List Char) :
    pyIsAlnum (removeAll '-' (removeAll '_' v)) = true ↔
      (∀ c ∈ v, validUsernameChar c) ∧ ∃ c ∈ v, c.isAlphanum = true := by
  unfold pyIsAlnum removeAll
  rw [List.filter_filter]
  simp only [Bool.and_eq_true, List.all_eq_true, List.mem_filter, Bool.not_eq_true',
    List.isEmpty_eq_false_iff_exists_mem, bne_iff_ne, ne_eq, and_imp]
  constructor
  · rintro ⟨⟨x, hxv, hx1, hx2⟩, hall⟩
    refine ⟨?_, x, hxv, hall x hxv hx1 hx2⟩
    intro c hc
    by_cases h1 : c = '-'
    · exact Or.inr (Or.inl h1)
    by_cases h2 : c = '_'
    · exact Or.inr (Or.inr h2)
    · exact Or.inl (hall c hc h1 h2)
  · rintro ⟨hval, c, hc, hcal⟩
    have hcd : c ≠ '-' := by
      intro h; rw [h] at hcal; exact absurd hcal (by decide)
    have hcu : c ≠ '_' := by
      intro h; rw [h] at hcal; exact absurd hcal (by decide)
    refine ⟨⟨c, hc, hcd, hcu⟩, ?_⟩
    intro x hx h1 h2
    rcases hval x hx with h | h | h
    · exact h
    · exact absurd h h1
    · exact absurd h h2


/-- Resolving `validate_username`: success forces the character test and
returns exactly the lowercased input. -/
theorem validate_username_eq_some {v w : List Char} :
    validate_username v = some w ↔
      pyIsAlnum (removeAll '-' (removeAll '_' v)) = true ∧ w = v.map Char.toLower := by
  unfold validate_username
  split
  · rename_i h
    simp [h, eq_comm]
  · rename_i h
    simp [h]

/-! ### Resolving the parser and the create handler case by case -/

/-- Unfolding a successful payload parse. -/
theorem parseUserCreate_some {e u : List Char} {uc : UserCreate}
    (h : parseUserCreate e u = some uc) :
    uc.email = e ∧ uc.username = u.map Char.toLower ∧ validEmail e = true ∧
    3 ≤ u.length ∧ u.length ≤ 50 ∧
    pyIsAlnum (removeAll '-' (removeAll '_' u)) = true := by
  unfold parseUserCreate at h
  split at h
  · rename_i hcond
    cases hv : validate_username u with
    | none => rw [hv] at h; exact absurd h (by simp)
    | some w =>
      rw [hv] at h
      obtain ⟨hchk, hw⟩ := validate_username_eq_some.mp hv
      cases h
      exact ⟨rfl, hw, hcond.1, hcond.2.1, hcond.2.2, hchk⟩
  · exact absurd h (by simp)

/-- A parsed payload carries a well-formed normalized username. -/
theorem parseUserCreate_valid_username {e u : List Char} {uc : UserCreate}
    (h : parseUserCreate e u = some uc) :
    3 ≤ uc.username.length ∧ uc.username.length ≤ 50 ∧
      ∀ c ∈ uc.username, validUsernameChar c := by
  obtain ⟨-, huser, -, h3, h50, hchk⟩ := parseUserCreate_some h
  obtain ⟨hall, -⟩ := (usernameCheck_iff u).mp hchk
  rw [huser, List.length_map]
  refine ⟨h3, h50, ?_⟩
  intro c hc
  obtain ⟨d, hd, rfl⟩ := List.mem_map.mp hc
  exact validUsernameChar_toLower (hall d hd)

/-- Create fails first on a duplicate email, whatever the username. -/
theorem create_user_email_conflict {s : Store} {uc : UserCreate} {tc tu : Nat}
    (h : ∃ r ∈ s.users, r.email = uc.email) :
    create_user s uc tc tu = (.err 400 "Email already registered", s) := by
  obtain ⟨r, hr, he⟩ := h
  have hsome : (s.users.find? (fun r => r.email == uc.email)).isSome :=
    List.find?_isSome.mpr ⟨r, hr, by simp [he]⟩
  obtain ⟨y, hy⟩ := Option.isSome_iff_exists.mp hsome
  unfold create_user
  rw [hy]

/-- With the email fresh, create fails on a duplicate stored username. -/
theorem create_user_username_conflict {s : Store} {uc : UserCreate} {tc tu : Nat}
    (he : ∀ r ∈ s.users, r.email ≠ uc.email)
    (h : ∃ r ∈ s.users, r.username = uc.username) :
    create_user s uc tc tu = (.err 400 "Username already taken", s) := by
  obtain ⟨r, hr, hu⟩ := h
  have hfe : s.users.find? (fun r => r.email == uc.email) = none := by
    rw [List.find?_eq_none]
    intro x hx
    simp [he x hx]
  have hsome : (s.users.find? (fun r => r.username == uc.username)).isSome :=
    List.find?_isSome.mpr ⟨r, hr, by simp [hu]⟩
  obtain ⟨y, hy⟩ := Option.isSome_iff_exists.mp hsome
  unfold create_user
  rw [hfe, hy]

/-- With both lookups empty, create inserts the new row and returns it
with status 201. -/
theorem create_user_success {s : Store} {uc : UserCreate} {tc tu : Nat}
    (he : ∀ r ∈ s.users, r.email ≠ uc.email)
    (hu : ∀ r ∈ s.users, r.username ≠ uc.username) :
    create_user s uc tc tu =
      (.ok 201 (UserResponse.model_validate (newRow s uc tc tu)),
        { users := s.users ++ [newRow s uc tc tu], nextId := s.nextId + 1 }) := by
  have hfe : s.users.find? (fun r => r.email == uc.email) = none := by
    rw [List.find?_eq_none]
    intro x hx
    simp [he x hx]
  have hfu : s.users.find? (fun r => r.username == uc.username) = none := by
    rw [List.find?_eq_none]
    intro x hx
    simp [hu x hx]
  unfold create_user
  rw [hfe, hfu]
  rfl

/-- Inverting a successful create. -/
theorem create_user_ok_inv {s : Store} {uc : UserCreate} {tc tu : Nat}
    {st : Nat} {v : UserResponse} {s1 : Store}
    (h : create_user s uc tc tu = (.ok st v, s1)) :
    st = 201 ∧
    v = UserResponse.model_validate (newRow s uc tc tu) ∧
    s1 = { users := s.users ++ [newRow s uc tc tu], nextId := s.nextId + 1 } ∧
    (∀ r ∈ s.users, r.email ≠ uc.email) ∧
    (∀ r ∈ s.users, r.username ≠ uc.username) := by
  unfold create_user at h
  cases hfe : s.users.find? (fun r => r.email == uc.email) with
  | some r => rw [hfe] at h; exact absurd h (by simp)
  | none =>
    rw [hfe] at h
    cases hfu : s.users.find? (fun r => r.username == uc.username) with
    | some r => rw [hfu] at h; exact absurd h (by simp)
    | none =>
      rw [hfu] at h
      simp only [Prod.mk.injEq, HResp.ok.injEq] at h
      obtain ⟨⟨h201, hv⟩, hs⟩ := h
      refine ⟨h201.symm, hv.symm, hs.symm, ?_, ?_⟩
      · intro r hr
        simpa using List.find?_eq_none.mp hfe r hr
      · intro r hr
        simpa using List.find?_eq_none.mp hfu r hr

/-- A create that raises an HTTPException leaves the store untouched. -/
theorem create_user_err_inv {s : Store} {uc : UserCreate} {tc tu : Nat}
    {code : Nat} {d : String} {s2 : Store}
    (h : create_user s uc tc tu = (.err code d, s2)) : s2 = s := by
  unfold create_user at h
  cases hfe : s.users.find? (fun r => r.email == uc.email) with
  | some r =>
    rw [hfe] at h
    injection h with h1 h2
    exact h2.symm
  | none =>
    rw [hfe] at h
    cases hfu : s.users.find? (fun r => r.username == uc.username) with
    | some r =>
      rw [hfu] at h
      injection h with h1 h2
      exact h2.symm
    | none =>
      rw [hfu] at h
      exact absurd h (by simp)

/-! ### Resolving the remaining handlers case by case -/

/-- Delete with no matching row: 404, store untouched. -/
theorem delete_user_not_found {s : Store} {i : Nat}
    (h : s.users.find? (fun r => r.id == i) = none) :
    delete_user s i = (.err 404 "User not found", s) := by
  unfold delete_user
  rw [h]

/-- Delete with a matching row: confirmation message, row erased. -/
theorem delete_user_found {s : Store} {i : Nat} {r : User}
    (h : s.users.find? (fun r => r.id == i) = some r) :
    delete_user s i =
      (.ok 200 "User deleted successfully",
        { users := s.users.eraseP (fun r => r.id == i), nextId := s.nextId }) := by
  unfold delete_user
  rw [h]

/-- Get-by-id with no matching row: 404. -/
theorem get_user_not_found {s : Store} {i : Nat}
    (h : s.users.find? (fun r => r.id == i) = none) :
    get_user s i = .err 404 "User not found" := by
  unfold get_user
  rw [h]

/-- Get-by-id with a matching row: 200 with its response view. -/
theorem get_user_found {s : Store} {i : Nat} {r : User}
    (h : s.users.find? (fun r => r.id == i) = some r) :
    get_user s i = .ok 200 (UserResponse.model_validate r) := by
  unfold get_user
  rw [h]

/-! ### The store invariant is preserved by every request -/

/-- The fresh database satisfies the invariant. -/
theorem inv_initStore : Inv initStore := by
  simp [Inv, initStore]

/-- One request preserves the store invariant. -/
theorem inv_applyOp (s : Store) (op : Op) (h : Inv s) : Inv (applyOp s op) := by
  obtain ⟨hem, hun, hid, hwf, hbd⟩ := h
  cases op with
  | listOp k m => exact ⟨hem, hun, hid, hwf, hbd⟩
  | getOp i => exact ⟨hem, hun, hid, hwf, hbd⟩
  | getByEmailOp e => exact ⟨hem, hun, hid, hwf, hbd⟩
  | createOp e u tc tu =>
    cases hp : parseUserCreate e u with
    | none =>
      simp only [applyOp, hp]
      exact ⟨hem, hun, hid, hwf, hbd⟩
    | some uc =>
      simp only [applyOp, hp]
      rcases hc : create_user s uc tc tu with ⟨res, s2⟩
      simp only [hc]
      cases res with
      | err code d =>
        have hs2 : s2 = s := create_user_err_inv hc
        subst hs2
        exact ⟨hem, hun, hid, hwf, hbd⟩
      | ok st v =>
        obtain ⟨-, -, hs1, he, hu⟩ := create_user_ok_inv hc
        subst hs1
        refine ⟨?_, ?_, ?_, ?_, ?_⟩
        · rw [List.map_append, List.nodup_append]
          refine ⟨hem, List.nodup_singleton _, ?_⟩
          intro a ha ha2
          obtain ⟨r, hr, hre⟩ := List.mem_map.mp ha
          rcases List.mem_singleton.mp ha2 with rfl
          exact he r hr (by simpa [newRow] using hre)
        · rw [List.map_append, List.nodup_append]
          refine ⟨hun, List.nodup_singleton _, ?_⟩
          intro a ha ha2
          obtain ⟨r, hr, hre⟩ := List.mem_map.mp ha
          rcases List.mem_singleton.mp ha2 with rfl
          exact hu r hr (by simpa [newRow] using hre)
        · rw [List.map_append, List.nodup_append]
          refine ⟨hid, List.nodup_singleton _, ?_⟩
          intro a ha ha2
          obtain ⟨r, hr, hre⟩ := List.mem_map.mp ha
          rcases List.mem_singleton.mp ha2 with rfl
          have := hbd r hr
          rw [hre] at this
          simp [newRow] at this
        · intro r hr
          rcases List.mem_append.mp hr with hr | hr
          · exact hwf r hr
          · rcases List.mem_singleton.mp hr with rfl
            simpa [newRow] using parseUserCreate_valid_username hp
        · intro r hr
          rcases List.mem_append.mp hr with hr | hr
          · exact Nat.lt_succ_of_lt (hbd r hr)
          · rcases List.mem_singleton.mp hr with rfl
            simp [newRow]
  | deleteOp i =>
    simp only [applyOp]
    cases hf : s.users.find? (fun r => r.id == i) with
    | none => rw [delete_user_not_found hf]; exact ⟨hem, hun, hid, hwf, hbd⟩
    | some r =>
      rw [delete_user_found hf]
      have hsub : List.Sublist (s.users.eraseP (fun r => r.id == i)) s.users :=
        List.eraseP_sublist s.users
      refine ⟨?_, ?_, ?_, ?_, ?_⟩
      · exact List.Nodup.sublist (hsub.map User.email) hem
      · exact List.Nodup.sublist (hsub.map User.username) hun
      · exact List.Nodup.sublist (hsub.map User.id) hid
      · intro x hx
        exact hwf x (hsub.subset hx)
      · intro x hx
        exact hbd x (hsub.subset hx)

/-- Every request sequence from the fresh database keeps the invariant. -/
theorem inv_runOps (ops : List Op) : Inv (runOps ops) := by
  suffices h : ∀ s, Inv s → Inv (ops.foldl applyOp s) from h initStore inv_initStore
  induction ops with
  | nil => intro s hs; exact hs
  | cons op rest ih => intro s hs; exact ih _ (inv_applyOp s op hs)

/-- Every reachable store satisfies the invariant. -/
theorem inv_of_reachable {s : Store} (h : Reachable s) : Inv s := by
  obtain ⟨ops, rfl⟩ := h
  exact inv_runOps ops

/-- Get-by-email with no matching row: 404. -/
theorem get_user_by_email_not_found {s : Store} {e : List Char}
    (h : s.users.find? (fun r => r.email == e) = none) :
    get_user_by_email s e = .err 404 "User not found" := by
  unfold get_user_by_email
  rw [h]

/-- Get-by-email with a matching row: 200 with its response view. -/
theorem get_user_by_email_found {s : Store} {e : List Char} {r : User}
    (h : s.users.find? (fun r => r.email == e) = some r) :
    get_user_by_email s e = .ok 200 (UserResponse.model_validate r) := by
  unfold get_user_by_email
  rw [h]

/-! ### The claims -/

/-- C1: for every store and creation payload, Create first looks up an
existing record by email and fails with Conflict "Email already
registered" when one exists (whatever the username); otherwise it looks
up the normalized username and fails with Conflict "Username already
taken" when found; only with both lookups empty does it insert the row
and return it with status 201 Created.  The payload's username is the
normalized (lowercased) form produced by validation. -/
theorem C1_create_duplicate_checks (s : Store) (e u : List Char) (uc : UserCreate)
    (tc tu : Nat) (hp : parseUserCreate e u = some uc) :
    uc.username = u.map Char.toLower ∧
    ((∃ r ∈ s.users, r.email = uc.email) →
      create_user s uc tc tu = (.err 400 "Email already registered", s)) ∧
    ((∀ r ∈ s.users, r.email ≠ uc.email) → (∃ r ∈ s.users, r.username = uc.username) →
      create_user s uc tc tu = (.err 400 "Username already taken", s)) ∧
    ((∀ r ∈ s.users, r.email ≠ uc.email) → (∀ r ∈ s.users, r.username ≠ uc.username) →
      create_user s uc tc tu =
        (.ok 201 (UserResponse.model_validate (newRow s uc tc tu)),
          { users := s.users ++ [newRow s uc tc tu], nextId := s.nextId + 1 })) := by
  refine ⟨(parseUserCreate_some hp).2.1, ?_, ?_, ?_⟩
  · exact create_user_email_conflict
  · exact create_user_username_conflict
  · exact create_user_success

/-- C1 witness: with `a@x.com` already stored (even under the same
username), creating `{email: a@x.com, username: Alice}` is refused with
the email conflict. -/
theorem C1_create_duplicate_checks_witness :
    create_user aliceStore
      { email := ("a@x.com").toList, username := ("alice").toList } 5 6 =
      (.err 400 "Email already registered", aliceStore) :=
  (C1_create_duplicate_checks aliceStore (("a@x.com").toList) (("Alice").toList)
    { email := ("a@x.com").toList, username := ("alice").toList } 5 6
    (by decide)).2.1 (by decide)

/-- C2 counterexample: every character of `___` is drawn from
{alphanumeric, hyphen, underscore}, yet the validator rejects it (Python's
`isalnum` is false on the empty string left after stripping). -/
theorem C2_counterexample :
    (∀ c ∈ ("___").toList, validUsernameChar c) ∧
      validate_username (("___").toList) = none := by
  decide

/-- C2 (amended): the validator accepts a username iff every character is
alphanumeric, hyphen, or underscore AND at least one character is
alphanumeric (so the empty string and strings of only hyphens/underscores
are rejected); on acceptance it produces the lowercased form. -/
theorem C2_username_charset (v w : List Char) :
    validate_username v = some w ↔
      (∀ c ∈ v, validUsernameChar c) ∧ (∃ c ∈ v, c.isAlphanum = true) ∧
        w = v.map Char.toLower := by
  rw [validate_username_eq_some, usernameCheck_iff]
  tauto

/-- C2 witness: `Ab-1` is accepted and lowercased to `ab-1`. -/
theorem C2_username_charset_witness :
    validate_username (("Ab-1").toList) = some (("ab-1").toList) :=
  (C2_username_charset (("Ab-1").toList) (("ab-1").toList)).mpr
    ⟨by decide, by decide, by decide⟩

/-- C9: a create that fails with a Conflict leaves the store unchanged
(nothing inserted, nothing modified, no retry); consequently creating two
users with the same email gives one success and then one Conflict. -/
theorem C9_conflict_atomicity :
    (∀ (s : Store) (uc : UserCreate) (tc tu code : Nat) (d : String) (s2 : Store),
      create_user s uc tc tu = (.err code d, s2) → s2 = s) ∧
    (∀ (s : Store) (uc1 uc2 : UserCreate) (tc1 tu1 tc2 tu2 : Nat)
      (v : UserResponse) (s1 : Store),
      create_user s uc1 tc1 tu1 = (.ok 201 v, s1) → uc2.email = uc1.email →
      create_user s1 uc2 tc2 tu2 = (.err 400 "Email already registered", s1)) := by
  constructor
  · intro s uc tc tu code d s2 h
    exact create_user_err_inv h
  · intro s uc1 uc2 tc1 tu1 tc2 tu2 v s1 h he
    obtain ⟨-, -, hs1, -, -⟩ := create_user_ok_inv h
    subst hs1
    apply create_user_email_conflict
    exact ⟨newRow s uc1 tc1 tu1, by simp, by simp [newRow, he]⟩

/-- C9 witness: after successfully creating `a@x.com`/`alice`, a second
create with the same email (different username) is refused with the email
conflict and the store is left as it was. -/
theorem C9_conflict_atomicity_witness :
    create_user aliceStore
      { email := ("a@x.com").toList, username := ("bob").toList } 7 8 =
      (.err 400 "Email already registered", aliceStore) :=
  C9_conflict_atomicity.2 initStore
    { email := ("a@x.com").toList, username := ("alice").toList }
    { email := ("a@x.com").toList, username := ("bob").toList } 0 1 7 8
    (UserResponse.model_validate aliceRow) aliceStore (by decide) (by decide)

/-- C10: email comparison is exact and case-sensitive throughout.  A
parsed payload keeps its email exactly as provided (no lowercasing); the
duplicate-email check of Create fires precisely when a stored row carries
the identical email string; a successful Create stores and returns the
email as provided; Get-by-email succeeds exactly on an exact string match
and fails with 404 NotFound otherwise. -/
theorem C10_email_exact_case_sensitive :
    (∀ (e u : List Char) (uc : UserCreate), parseUserCreate e u = some uc → uc.email = e) ∧
    (∀ (s : Store) (uc : UserCreate) (tc tu : Nat),
      (create_user s uc tc tu).1 = HResp.err 400 "Email already registered" ↔
        ∃ r ∈ s.users, r.email = uc.email) ∧
    (∀ (s : Store) (uc : UserCreate) (tc tu st : Nat) (v : UserResponse) (s1 : Store),
      create_user s uc tc tu = (.ok st v, s1) →
        v.email = uc.email ∧ ∃ r ∈ s1.users, r.email = uc.email) ∧
    (∀ (s : Store) (e : List Char),
      ((∀ r ∈ s.users, r.email ≠ e) → get_user_by_email s e = .err 404 "User not found") ∧
      (∀ (st : Nat) (v : UserResponse), get_user_by_email s e = .ok st v →
        v.email = e ∧ ∃ r ∈ s.users, r.email = e) ∧
      ((∃ r ∈ s.users, r.email = e) →
        ∃ v, get_user_by_email s e = .ok 200 v ∧ v.email = e)) := by
  refine ⟨?_, ?_, ?_, ?_⟩
  · intro e u uc hp
    exact (parseUserCreate_some hp).1
  · intro s uc tc tu
    by_cases hex : ∃ r ∈ s.users, r.email = uc.email
    · rw [create_user_email_conflict hex]
      simpa using hex
    · push_neg at hex
      constructor
      · intro h
        by_cases hun : ∃ r ∈ s.users, r.username = uc.username
        · rw [create_user_username_conflict hex hun] at h
          simp at h
        · push_neg at hun
          rw [create_user_success hex hun] at h
          simp at h
      · intro h
        obtain ⟨r, hr, he⟩ := h
        exact absurd he (hex r hr)
  · intro s uc tc tu st v s1 h
    obtain ⟨-, hv, hs1, -, -⟩ := create_user_ok_inv h
    subst hv hs1
    refine ⟨rfl, newRow s uc tc tu, by simp, rfl⟩
  · intro s e
    refine ⟨?_, ?_, ?_⟩
    · intro h
      apply get_user_by_email_not_found
      rw [List.find?_eq_none]
      intro x hx
      simp [h x hx]
    · intro st v h
      cases hf : s.users.find? (fun r => r.email == e) with
      | none => rw [get_user_by_email_not_found hf] at h; exact absurd h (by simp)
      | some r =>
        rw [get_user_by_email_found hf] at h
        have hre : r.email = e := by simpa using List.find?_some hf
        obtain ⟨-, hv⟩ := HResp.ok.inj h
        exact ⟨hv ▸ hre, r, List.mem_of_find?_eq_some hf, hre⟩
    · intro hex
      obtain ⟨r, hr, hre⟩ := hex
      have hsome : (s.users.find? (fun r => r.email == e)).isSome :=
        List.find?_isSome.mpr ⟨r, hr, by simp [hre]⟩
      obtain ⟨y, hy⟩ := Option.isSome_iff_exists.mp hsome
      have hye : y.email = e := by simpa using List.find?_some hy
      exact ⟨UserResponse.model_validate y, get_user_by_email_found hy, hye⟩

/-- C10 witness: with `a@x.com` stored, fetching by the case-variant
`A@x.com` is an exact-match miss (404), and the duplicate-email check does
not fire for the case-variant email, so a second user whose email differs
only in letter case is created successfully. -/
theorem C10_email_exact_case_sensitive_witness :
    (get_user_by_email aliceStore (("A@x.com").toList) = .err 404 "User not found") ∧
    ¬((create_user aliceStore
        { email := ("A@x.com").toList, username := ("bob").toList } 7 8).1 =
      HResp.err 400 "Email already registered") :=
  ⟨(C10_email_exact_case_sensitive.2.2.2 aliceStore (("A@x.com").toList)).1 (by decide),
    fun h => by
      have := (C10_email_exact_case_sensitive.2.1 aliceStore
        { email := ("A@x.com").toList, username := ("bob").toList } 7 8).mp h
      revert this
      decide⟩

/-- C3: after a user is created from a parsed payload, a second Create
whose raw username differs from the first only by letter case (same
lowercasing) and whose email is fresh parses successfully and then fails
with Conflict "Username already taken", the store unchanged: lowercasing
on write collapses case before the uniqueness lookup. -/
theorem C3_username_case_collapses (s : Store) (e1 u1 : List Char) (uc1 : UserCreate)
    (tc1 tu1 : Nat) (v : UserResponse) (s1 : Store) (e2 u2 : List Char) (tc2 tu2 : Nat)
    (hp1 : parseUserCreate e1 u1 = some uc1)
    (hc1 : create_user s uc1 tc1 tu1 = (.ok 201 v, s1))
    (hve : validEmail e2 = true)
    (hfresh : ∀ r ∈ s1.users, r.email ≠ e2)
    (hcase : u2.map Char.toLower = u1.map Char.toLower) :
    ∃ uc2, parseUserCreate e2 u2 = some uc2 ∧
      create_user s1 uc2 tc2 tu2 = (.err 400 "Username already taken", s1) := by
  obtain ⟨he1, hu1, hve1, h3, h50, hchk1⟩ := parseUserCreate_some hp1
  have hlen : u2.length = u1.length := by
    have := congrArg List.length hcase
    simpa using this
  have hchk2 : pyIsAlnum (removeAll '-' (removeAll '_' u2)) = true := by
    rw [← usernameCheck_map_toLower u2, hcase, usernameCheck_map_toLower u1]
    exact hchk1
  have hp2 : parseUserCreate e2 u2 = some { email := e2, username := u2.map Char.toLower } := by
    unfold parseUserCreate
    rw [if_pos ⟨hve, by omega, by omega⟩]
    rw [validate_username_eq_some.mpr ⟨hchk2, rfl⟩]
  refine ⟨{ email := e2, username := u2.map Char.toLower }, hp2, ?_⟩
  obtain ⟨-, -, hs1, -, -⟩ := create_user_ok_inv hc1
  subst hs1
  apply create_user_username_conflict hfresh
  refine ⟨newRow s uc1 tc1 tu1, by simp, ?_⟩
  show (newRow s uc1 tc1 tu1).username = u2.map Char.toLower
  rw [hcase]
  simp [newRow, hu1]

/-- C3 witness: after creating `Alice` (stored as `alice`), creating
`ALICE` under a fresh email parses and is refused with the username
conflict. -/
theorem C3_username_case_collapses_witness :
    ∃ uc2, parseUserCreate (("b@x.com").toList) (("ALICE").toList) = some uc2 ∧
      create_user aliceStore uc2 7 8 = (.err 400 "Username already taken", aliceStore) :=
  C3_username_case_collapses initStore (("a@x.com").toList) (("Alice").toList)
    { email := ("a@x.com").toList, username := ("alice").toList } 0 1
    (UserResponse.model_validate aliceRow) aliceStore
    (("b@x.com").toList) (("ALICE").toList) 7 8
    (by decide) (by decide) (by decide) (by decide) (by decide)

/-- C4: List with `skip = k` and `limit = m` always succeeds with status
200 (an empty page is not an error) and returns exactly the records at
insertion positions `[k, k+m)` in insertion order: the page has length
`min m (N - k)`, its i-th entry is the view of the store's `(k+i)`-th
record, and `k ≥ N` yields the empty list. -/
theorem C4_pagination (s : Store) (skip limit : Nat) :
    ∃ rs, get_users s skip limit = .ok 200 rs ∧
      rs.length = min limit (s.users.length - skip) ∧
      (∀ i : Nat, i < limit →
        rs[i]? = (s.users[skip + i]?).map UserResponse.model_validate) ∧
      (∀ i : Nat, limit ≤ i → rs[i]? = none) ∧
      (s.users.length ≤ skip → rs = []) := by
  refine ⟨((s.users.drop skip).take limit).map UserResponse.model_validate,
    rfl, ?_, ?_, ?_, ?_⟩
  · simp [List.length_take, List.length_drop]
  · intro i hi
    rw [List.getElem?_map, List.getElem?_take_of_lt hi, List.getElem?_drop]
  · intro i hi
    apply List.getElem?_eq_none
    calc (((s.users.drop skip).take limit).map UserResponse.model_validate).length
        ≤ limit := by simp [List.length_take]
      _ ≤ i := hi
  · intro hle
    rw [List.drop_eq_nil_of_le hle]
    simp

/-- C4 witness: listing the single-row store with `skip = 0, limit = 100`
returns the one record at position 0, and `skip = 5` past the end yields
the empty page with status 200. -/
theorem C4_pagination_witness :
    (∃ rs, get_users aliceStore 0 100 = .ok 200 rs ∧
      rs.length = min 100 (aliceStore.users.length - 0) ∧
      (∀ i : Nat, i < 100 →
        rs[i]? = (aliceStore.users[0 + i]?).map UserResponse.model_validate) ∧
      (∀ i : Nat, 100 ≤ i → rs[i]? = none) ∧
      (aliceStore.users.length ≤ 0 → rs = [])) ∧
    (∃ rs, get_users aliceStore 5 100 = .ok 200 rs ∧
      rs.length = min 100 (aliceStore.users.length - 5) ∧
      (∀ i : Nat, i < 100 →
        rs[i]? = (aliceStore.users[5 + i]?).map UserResponse.model_validate) ∧
      (∀ i : Nat, 100 ≤ i → rs[i]? = none) ∧
      (aliceStore.users.length ≤ 5 → rs = [])) :=
  ⟨C4_pagination aliceStore 0 100, C4_pagination aliceStore 5 100⟩

/-- C5: from any reachable store, the response view returned by a
successful Create is identical, field for field (the two `UserResponse`
structures are equal), to the view returned by an immediate Get-by-id
with the new record's id. -/
theorem C5_create_get_roundtrip (s : Store) (uc : UserCreate) (tc tu : Nat)
    (v : UserResponse) (s1 : Store) (hreach : Reachable s)
    (hc : create_user s uc tc tu = (.ok 201 v, s1)) :
    get_user s1 v.id = .ok 200 v := by
  obtain ⟨-, hv, hs1, -, -⟩ := create_user_ok_inv hc
  obtain ⟨-, -, -, -, hbd⟩ := inv_of_reachable hreach
  subst hv hs1
  apply get_user_found
  rw [List.find?_append]
  have h1 : s.users.find?
      (fun r => r.id == (UserResponse.model_validate (newRow s uc tc tu)).id) = none := by
    rw [List.find?_eq_none]
    intro x hx
    have := hbd x hx
    simp only [UserResponse.model_validate, newRow, beq_iff_eq]
    omega
  rw [h1]
  simp [UserResponse.model_validate, newRow]

/-- C5 witness: creating `bob` on top of the sample store and fetching the
returned id gives back the same response view. -/
theorem C5_create_get_roundtrip_witness :
    get_user
      { users := [aliceRow,
          { id := 2, email := ("b@x.com").toList, username := ("bob").toList,
            created_at := 5, updated_at := 6 }], nextId := 3 }
      ({ id := 2, email := ("b@x.com").toList, username := ("bob").toList,
          created_at := 5, updated_at := 6 : UserResponse }).id =
      .ok 200 { id := 2, email := ("b@x.com").toList, username := ("bob").toList,
                created_at := 5, updated_at := 6 } :=
  C5_create_get_roundtrip aliceStore
    { email := ("b@x.com").toList, username := ("bob").toList } 5 6
    { id := 2, email := ("b@x.com").toList, username := ("bob").toList,
      created_at := 5, updated_at := 6 }
    { users := [aliceRow,
        { id := 2, email := ("b@x.com").toList, username := ("bob").toList,
          created_at := 5, updated_at := 6 }], nextId := 3 }
    ⟨[Op.createOp (("a@x.com").toList) (("Alice").toList) 0 1], by decide⟩
    (by decide)

/-- C6: from any reachable store, a successful Delete of an id returns the
confirmation message, removes exactly that one record (the rest keep
their order), and afterwards both Get-by-id and a second Delete of the
same id fail with 404 NotFound, the second Delete leaving the store
unchanged. -/
theorem C6_delete_then_notfound (s : Store) (i : Nat) (msg : String) (s1 : Store)
    (hreach : Reachable s)
    (hd : delete_user s i = (.ok 200 msg, s1)) :
    msg = "User deleted successfully" ∧
    get_user s1 i = .err 404 "User not found" ∧
    delete_user s1 i = (.err 404 "User not found", s1) ∧
    ∃ r l1 l2, r.id = i ∧ s.users = l1 ++ r :: l2 ∧ s1.users = l1 ++ l2 ∧
      s1.nextId = s.nextId := by
  cases hf : s.users.find? (fun r => r.id == i) with
  | none =>
    rw [delete_user_not_found hf] at hd
    exact absurd hd (by simp)
  | some r =>
    rw [delete_user_found hf] at hd
    simp only [Prod.mk.injEq, HResp.ok.injEq] at hd
    obtain ⟨⟨-, hmsg⟩, hs1⟩ := hd
    subst hs1
    have hmem := List.mem_of_find?_eq_some hf
    have hpr := List.find?_some hf
    obtain ⟨a, l1, l2, hl1, hpa, hsplit, herase⟩ :=
      @List.exists_of_eraseP User (fun x => x.id == i) s.users r hmem hpr
    have hai : a.id = i := by simpa using hpa
    have hids : (s.users.map User.id).Nodup := (inv_of_reachable hreach).2.2.1
    have hnotin : a.id ∉ l2.map User.id := by
      rw [hsplit, List.map_append, List.map_cons] at hids
      exact (List.nodup_cons.mp (List.nodup_append.mp hids).2.1).1
    have hnone : (s.users.eraseP (fun r => r.id == i)).find? (fun r => r.id == i) = none := by
      rw [herase, List.find?_eq_none]
      intro x hx
      rcases List.mem_append.mp hx with hx | hx
      · exact hl1 x hx
      · intro hxp
        have hxi : x.id = i := by simpa using hxp
        exact hnotin (hai ▸ hxi ▸ List.mem_map_of_mem User.id hx)
    refine ⟨hmsg.symm, get_user_not_found hnone, delete_user_not_found hnone,
      a, l1, l2, hai, hsplit, herase, rfl⟩

/-- C6 witness: deleting id 1 from the sample store empties it; the
follow-up Get and Delete of id 1 are 404s, and the decomposition exhibits
the removed row. -/
theorem C6_delete_then_notfound_witness :
    ("User deleted successfully" : String) = "User deleted successfully" ∧
    get_user { users := [], nextId := 2 } 1 = .err 404 "User not found" ∧
    delete_user { users := [], nextId := 2 } 1 =
      (.err 404 "User not found", { users := [], nextId := 2 }) ∧
    ∃ r l1 l2, r.id = 1 ∧ aliceStore.users = l1 ++ r :: l2 ∧
      ({ users := [], nextId := 2 } : Store).users = l1 ++ l2 ∧
      ({ users := [], nextId := 2 } : Store).nextId = aliceStore.nextId :=
  C6_delete_then_notfound aliceStore 1 "User deleted successfully"
    { users := [], nextId := 2 }
    ⟨[Op.createOp (("a@x.com").toList) (("Alice").toList) 0 1], by decide⟩
    (by decide)

/-- C7 counterexample: `created_at` and `updated_at` come from two
separate `datetime.utcnow()` calls (two distinct `default_factory`
evaluations), so a run whose two clock readings differ — here 0 and 1 —
reaches a store holding a record with `updated_at ≠ created_at`.  The
claimed invariant `updated_at = created_at` therefore does not hold of
the code. -/
theorem C7_counterexample :
    ∃ r ∈ (runOps [Op.createOp (("a@x.com").toList) (("Alice").toList) 0 1]).users,
      r.updated_at ≠ r.created_at := by
  refine ⟨aliceRow, ?_, ?_⟩
  · decide
  · decide

/-- C7 (amended): `updated_at` is set at creation from its own clock
reading, taken separately from (immediately after) `created_at`'s, so
the two fields coincide only when the two readings do; no operation ever
mutates an existing record, so both fields — in particular `updated_at` —
never change after creation (there is no update endpoint). -/
theorem C7_updated_at_write_once (s : Store) (op : Op) (r : User)
    (h : r ∈ (applyOp s op).users) :
    r ∈ s.users ∨
      ∃ e u tc tu, op = Op.createOp e u tc tu ∧
        r.created_at = tc ∧ r.updated_at = tu := by
  cases op with
  | listOp k m => exact Or.inl h
  | getOp i => exact Or.inl h
  | getByEmailOp e => exact Or.inl h
  | deleteOp i =>
    simp only [applyOp] at h
    cases hf : s.users.find? (fun r => r.id == i) with
    | none =>
      rw [delete_user_not_found hf] at h
      exact Or.inl h
    | some x =>
      rw [delete_user_found hf] at h
      exact Or.inl (List.eraseP_subset _ h)
  | createOp e u tc tu =>
    cases hp : parseUserCreate e u with
    | none =>
      simp only [applyOp, hp] at h
      exact Or.inl h
    | some uc =>
      simp only [applyOp, hp] at h
      rcases hc : create_user s uc tc tu with ⟨res, s2⟩
      rw [hc] at h
      cases res with
      | err code d =>
        rw [create_user_err_inv hc] at h
        exact Or.inl h
      | ok st v =>
        obtain ⟨-, -, hs1, -, -⟩ := create_user_ok_inv hc
        rw [hs1] at h
        rcases List.mem_append.mp h with h | h
        · exact Or.inl h
        · rcases List.mem_singleton.mp h with rfl
          exact Or.inr ⟨e, u, tc, tu, rfl, rfl, rfl⟩

/-- C7 amended witness: the sample row (clock readings 0 and 1) is the
record its create request inserted, carrying exactly those readings. -/
theorem C7_updated_at_write_once_witness :
    aliceRow ∈ (applyOp initStore
      (Op.createOp (("a@x.com").toList) (("Alice").toList) 0 1)).users ∧
    (aliceRow ∈ initStore.users ∨
      ∃ e u tc tu,
        Op.createOp (("a@x.com").toList) (("Alice").toList) 0 1 = Op.createOp e u tc tu ∧
        aliceRow.created_at = tc ∧ aliceRow.updated_at = tu) :=
  ⟨by decide,
    C7_updated_at_write_once initStore
      (Op.createOp (("a@x.com").toList) (("Alice").toList) 0 1) aliceRow (by decide)⟩

/-- C8: every reachable store satisfies the persistence invariants:
pairwise-distinct emails, pairwise-distinct stored (normalized)
usernames, pairwise-distinct ids, and every stored username of length
3-50 over alphanumerics, hyphens, and underscores. -/
theorem C8_store_invariants (s : Store) (hreach : Reachable s) :
    (s.users.map User.email).Nodup ∧
    (s.users.map User.username).Nodup ∧
    (s.users.map User.id).Nodup ∧
    ∀ r ∈ s.users, 3 ≤ r.username.length ∧ r.username.length ≤ 50 ∧
      ∀ c ∈ r.username, validUsernameChar c := by
  obtain ⟨h1, h2, h3, h4, -⟩ := inv_of_reachable hreach
  exact ⟨h1, h2, h3, h4⟩

/-- C8 witness: the invariants hold concretely of the two-user store
reached by creating `Alice` and then `bob-2`. -/
theorem C8_store_invariants_witness :
    ((runOps [Op.createOp (("a@x.com").toList) (("Alice").toList) 0 1,
        Op.createOp (("b@x.com").toList) (("Bob-2").toList) 2 3]).users.map
      User.email).Nodup ∧
    ((runOps [Op.createOp (("a@x.com").toList) (("Alice").toList) 0 1,
        Op.createOp (("b@x.com").toList) (("Bob-2").toList) 2 3]).users.map
      User.username).Nodup ∧
    ((runOps [Op.createOp (("a@x.com").toList) (("Alice").toList) 0 1,
        Op.createOp (("b@x.com").toList) (("Bob-2").toList) 2 3]).users.map
      User.id).Nodup ∧
    ∀ r ∈ (runOps [Op.createOp (("a@x.com").toList) (("Alice").toList) 0 1,
        Op.createOp (("b@x.com").toList) (("Bob-2").toList) 2 3]).users,
      3 ≤ r.username.length ∧ r.username.length ≤ 50 ∧
        ∀ c ∈ r.username, validUsernameChar c :=
  C8_store_invariants
    (runOps [Op.createOp (("a@x.com").toList) (("Alice").toList) 0 1,
      Op.createOp (("b@x.com").toList) (("Bob-2").toList) 2 3])
    ⟨[Op.createOp (("a@x.com").toList) (("Alice").toList) 0 1,
      Op.createOp (("b@x.com").toList) (("Bob-2").toList) 2 3], rfl⟩

end UserService
